import Mathlib

/-!
Verification development for the binding-generation and registration core of
the gdext repository (godot-codegen special cases and godot-macros expansion).

The Rust sources under godot-codegen/src/special_cases.rs and
godot-macros/src/class/godot_api.rs are shallowly embedded below: pure lookup
functions become Lean functions on strings, the macro expansion becomes
functions from an abstract declaration model to structured registration glue,
and build-time failure (bail!) becomes Except.  Conditional compilation is
modelled by carrying, for each cfg attribute, its truth value in the active
build configuration.
-/

namespace Gdext

/-- Embeds `TyName` (godot-codegen): a type name with its Godot spelling and
its Rust spelling. -/
structure TyName where
  godot_ty : String
  rust_ty : String
deriving DecidableEq, Repr

/-- Embeds `api_parser::ClassMethod` as far as special_cases.rs consumes it:
only the method's name is inspected by the functions under verification
(the remaining fields of the external api_parser type are never read here). -/
structure ClassMethod where
  name : String
deriving DecidableEq, Repr

/-- Embeds Rust's `str::starts_with` on our string model: character-list
comparison of the leading segment (kernel-reducible, unlike
`String.startsWith`). -/
def strStartsWith (s p : String) : Bool :=
  decide (s.data.take p.data.length = p.data)

/-- Embeds slicing off the first `n` characters (Rust's `&s[n..]` on ASCII
prefixes), kernel-reducible. -/
def strDrop (s : String) (n : Nat) : String :=
  ⟨s.data.drop n⟩

/-- Build-time generation context (`crate::Context`).  Its definition lives
outside the provided sources; it is modelled as a record of mutable
generation state threaded through `is_deleted`. -/
structure Context where
  state : List String
deriving DecidableEq, Repr

/-- Ambient build configuration: the cfg!/#[cfg] atoms consulted by
special_cases.rs, plus a predicate standing for the table consulted by the
external `codegen_special_cases` module. -/
structure CodegenConfig where
  experimental_godot_api : Bool
  before_api_4_2 : Bool
  target_os_macos : Bool
  method_excluded_tbl : String → Bool

/-- Modelled from the spec: `codegen_special_cases::is_method_excluded` is not
under the provided sources.  Per §4.1 the Special-Case Rule Set consists of
pure, side-effect-free functions over the member name plus the ambient build
configuration, so it is modelled as a configuration-supplied predicate on the
method name that passes the generation context through unchanged. -/
def is_method_excluded (cfg : CodegenConfig) (method : ClassMethod)
    (_is_virtual : Bool) (ctx : Context) : Bool × Context :=
  (cfg.method_excluded_tbl method.name, ctx)

/-- Embeds `special_cases::is_deleted`: first consults the codegen exclusion
table (threading the context exactly as the Rust `&mut Context` does), then
matches the hardcoded (class, method) deletion table. -/
def is_deleted (cfg : CodegenConfig) (class_name : TyName)
    (method : ClassMethod) (ctx : Context) : Bool × Context :=
  let p := is_method_excluded cfg method false ctx
  if p.1 then (true, p.2)
  else
    (match class_name.godot_ty, method.name with
     | "Object", "get_instance_id" => true
     | "ResourceLoader", "load_threaded_get" => true
     | "ResourceLoader", "load_threaded_get_status" => true
     | "ResourceLoader", "load_threaded_request" => true
     | _, _ => false,
     p.2)

/-- Embeds `special_cases::is_class_experimental`: the hardcoded list of
experimental classes. -/
def is_class_experimental (class_name : TyName) : Bool :=
  match class_name.godot_ty with
  | "GraphEdit" => true
  | "GraphNode" => true
  | "NavigationAgent2D" => true
  | "NavigationAgent3D" => true
  | "NavigationLink2D" => true
  | "NavigationLink3D" => true
  | "NavigationMesh" => true
  | "NavigationMeshSourceGeometryData3D" => true
  | "NavigationObstacle2D" => true
  | "NavigationObstacle3D" => true
  | "NavigationPathQueryParameters2D" => true
  | "NavigationPathQueryParameters3D" => true
  | "NavigationPathQueryResult2D" => true
  | "NavigationPathQueryResult3D" => true
  | "NavigationPolygon" => true
  | "NavigationRegion2D" => true
  | "NavigationRegion3D" => true
  | "NavigationServer2D" => true
  | "NavigationServer3D" => true
  | "SkeletonModification2D" => true
  | "SkeletonModification2DCCDIK" => true
  | "SkeletonModification2DFABRIK" => true
  | "SkeletonModification2DJiggle" => true
  | "SkeletonModification2DLookAt" => true
  | "SkeletonModification2DPhysicalBones" => true
  | "SkeletonModification2DStackHolder" => true
  | "SkeletonModification2DTwoBoneIK" => true
  | "SkeletonModificationStack2D" => true
  | "StreamPeerGZIP" => true
  | "TextureRect" => true
  | _ => false

/-- Embeds `special_cases::is_class_deleted`: experimental opt-in check first,
then the cfg-gated OpenXR/ThemeDB rules, then the hardcoded class table. -/
def is_class_deleted (cfg : CodegenConfig) (class_name : TyName) : Bool :=
  if !cfg.experimental_godot_api && is_class_experimental class_name then true
  else
    let name := class_name.godot_ty
    if cfg.before_api_4_2 && cfg.target_os_macos && strStartsWith name ("OpenXR") then true
    else if cfg.before_api_4_2 && name = "ThemeDB" then true
    else
      match name with
      | "JavaClassWrapper" => true
      | "JNISingleton" => true
      | "JavaClass" => true
      | "JavaScriptBridge" => true
      | "JavaScriptObject" => true
      | "Thread" => true
      | "Mutex" => true
      | "Semaphore" => true
      | "FramebufferCacheRD" => true
      | "GDScriptEditorTranslationParserPlugin" => true
      | "GDScriptNativeClass" => true
      | "GLTFDocumentExtensionPhysics" => true
      | "GLTFDocumentExtensionTextureWebP" => true
      | "GodotPhysicsServer2D" => true
      | "GodotPhysicsServer3D" => true
      | "IPUnix" => true
      | "MovieWriterMJPEG" => true
      | "MovieWriterPNGWAV" => true
      | "ResourceFormatImporterSaver" => true
      | "UniformSetCacheRD" => true
      | _ => false

/-- Modelled from the spec: the Binding Generator (§4.2 step 1) is outside the
provided sources; it filters classes through `is_class_deleted` before any
per-class output is produced, so a deleted class contributes no generated
unit at all. -/
def retainedClasses (cfg : CodegenConfig) (classes : List TyName) : List TyName :=
  classes.filter (fun c => !is_class_deleted cfg c)

/-- Embeds `special_cases::is_private`: methods hidden from the public API. -/
def is_private (class_or_builtin_ty : TyName) (godot_method_name : String) : Bool :=
  match class_or_builtin_ty.godot_ty, godot_method_name with
  | "Object", "to_string" => true
  | "RefCounted", "init_ref" => true
  | "RefCounted", "reference" => true
  | "RefCounted", "unreference" => true
  | "Object", "notification" => true
  | _, _ => false

/-- Embeds `special_cases::is_named_accessor_in_table`: whether a method is
available in the method table as a named accessor (delegates to
`is_private`). -/
def is_named_accessor_in_table (class_or_builtin_ty : TyName)
    (godot_method_name : String) : Bool :=
  is_private class_or_builtin_ty godot_method_name

/-- Embeds `special_cases::is_excluded_from_default_params`. -/
def is_excluded_from_default_params (class_name : Option TyName)
    (godot_method_name : String) : Bool :=
  let cn := match class_name with
    | none => ""
    | some ty => ty.godot_ty
  match cn, godot_method_name with
  | "Object", "notification" => true
  | _, _ => false

/-- Embeds `special_cases::keeps_get_prefix` (renamed for Lean): the fixed
exception table of accessors that retain their get_ prefix. -/
def keeps_get_pfx (class_name : TyName) (method : ClassMethod) : Bool :=
  match class_name.godot_ty, method.name with
  | "Object", "get_class" => true
  | "Object", "get_instance_id" => true
  | "Object", "get_script" => true
  | "Object", "get_script_instance" => true
  | "Object", "get_incoming_connections" => true
  | "Object", "get_meta_list" => true
  | "Object", "get_method_list" => true
  | "Object", "get_property_list" => true
  | "Object", "get_signal_list" => true
  | "FileAccess", "get_16" => true
  | "FileAccess", "get_32" => true
  | "FileAccess", "get_64" => true
  | "FileAccess", "get_8" => true
  | "FileAccess", "get_as_text" => true
  | "FileAccess", "get_csv_line" => true
  | "FileAccess", "get_double" => true
  | "FileAccess", "get_error" => true
  | "FileAccess", "get_float" => true
  | "FileAccess", "get_line" => true
  | "FileAccess", "get_open_error" => true
  | "FileAccess", "get_pascal_string" => true
  | "FileAccess", "get_real" => true
  | "FileAccess", "get_var" => true
  | "StreamPeer", "get_16" => true
  | "StreamPeer", "get_32" => true
  | "StreamPeer", "get_64" => true
  | "StreamPeer", "get_8" => true
  | "StreamPeer", "get_double" => true
  | "StreamPeer", "get_float" => true
  | "StreamPeer", "get_string" => true
  | "StreamPeer", "get_u16" => true
  | "StreamPeer", "get_u32" => true
  | "StreamPeer", "get_u64" => true
  | "StreamPeer", "get_u8" => true
  | "StreamPeer", "get_utf8_string" => true
  | "StreamPeer", "get_var" => true
  | "AnimationPlayer", "get_queue" => true
  | _, _ => false

/-- Embeds Rust's `char::is_ascii_lowercase` (range a..=z). -/
def is_ascii_lowercase (c : Char) : Bool :=
  'a' ≤ c && c ≤ 'z'

/-- Embeds `special_cases::is_builtin_scalar`:
`name.chars().next().unwrap().is_ascii_lowercase()`.  The unguarded unwrap
panics on the empty name; the panic is modelled as `none`. -/
def is_builtin_scalar (name : String) : Option Bool :=
  name.data.head?.map is_ascii_lowercase

/-- Embeds `special_cases::is_builtin_type_deleted`:
`name == "Nil" || is_builtin_scalar(name)` with Rust's short-circuiting
disjunction; `none` models the panic propagated from `is_builtin_scalar`. -/
def is_builtin_type_deleted (class_name : TyName) : Option Bool :=
  let name := class_name.godot_ty
  if name = "Nil" then some true
  else is_builtin_scalar name

/-- Embeds `special_cases::maybe_renamed`: the fixed rename table, currently
mapping any method named new to instantiate. -/
def maybe_renamed (class_name : TyName) (godot_method_name : String) : String :=
  match class_name.godot_ty, godot_method_name with
  | _, "new" => "instantiate"
  | _, _ => godot_method_name

/-- Modelled from the spec: the accessor-prefix stripping pass (§4.1
accessor-prefix retention) lives in the Binding Generator outside the
provided sources.  By default it strips the get_ prefix of an accessor name;
the `keeps_get_pfx` exception table retains it. -/
def strip_accessor (class_name : TyName) (name : String) : String :=
  if strStartsWith name ("get_") && !keeps_get_pfx class_name ⟨name⟩ then
    strDrop name 4
  else
    name

/-- The composed public-name transformation of §4.2 step 3 as restated by the
spec's testable property: rename, then prefix-retention-based stripping. -/
def rename_then_strip (class_name : TyName) (name : String) : String :=
  strip_accessor class_name (maybe_renamed class_name name)

/-! ## Macro expansion model (godot-macros/src/class/godot_api.rs)

Declarations are modelled structurally.  An attribute is either one of the
three gdext markers (func/signal/constant, with the func options already
parsed, as `KvParser` would), a `#[cfg(...)]` attribute carrying its truth
value under the active build configuration, or any other attribute. -/

/-- A (parsed) attribute on a user declaration. -/
inductive Attr
  | func (rename : Option String) (gd_self : Bool)
  | signal
  | constant
  | cfg (active : Bool)
  | other (name : String)
deriving DecidableEq, Repr

/-- The role a bound attribute assigns (`BoundAttrType` in the source). -/
inductive BoundTy
  | func (rename : Option String) (gd_self : Bool)
  | signal
  | constant
deriving DecidableEq, Repr

/-- Embeds `BoundAttr`: attribute name, its index in the attribute list, and
its parsed role. -/
structure BoundAttr where
  attr_name : String
  index : Nat
  ty : BoundTy
deriving DecidableEq, Repr

/-- Embeds `venial` function qualifiers as far as the expander checks them. -/
structure Qualifiers where
  tk_default : Bool
  tk_const : Bool
  tk_async : Bool
  tk_unsafe : Bool
  tk_extern : Bool
  extern_abi : Bool
deriving DecidableEq, Repr

/-- The all-false qualifier set. -/
def Qualifiers.none : Qualifiers := ⟨false, false, false, false, false, false⟩

/-- A function parameter: either a typed parameter (name and type, the type
expression rendered as a string) or the receiver (self). -/
inductive FnParam
  | typed (name : String) (ty : String)
  | receiver
deriving DecidableEq, Repr

/-- Embeds a `venial::Function` as far as godot_api.rs consumes it. -/
structure Function where
  name : String
  params : List FnParam
  return_ty : Option String
  qualifiers : Qualifiers
  has_generic_params : Bool
  attributes : List Attr
deriving DecidableEq, Repr

/-- Embeds a `venial::Constant` member as far as godot_api.rs consumes it. -/
structure ConstDecl where
  name : String
  has_initializer : Bool
  attributes : List Attr
deriving DecidableEq, Repr

/-- An item of an impl block (`venial::ImplMember`). -/
inductive ImplItem
  | method (m : Function)
  | constItem (c : ConstDecl)
  | otherItem
deriving DecidableEq, Repr

/-- A build error produced by `bail!`. -/
structure GError where
  msg : String
deriving DecidableEq, Repr

/-- Embeds `BoundAttr::bail`: formats `#[attr_name]: msg`. -/
def attrBail (b : BoundAttr) (msg : String) : GError :=
  ⟨"#[" ++ b.attr_name ++ "]: " ++ msg⟩

/-- Which bound attribute (if any) a single attribute at index `i` yields. -/
def boundOf (i : Nat) : Attr → Option BoundAttr
  | .func r g => some ⟨"func", i, .func r g⟩
  | .signal => some ⟨"signal", i, .signal⟩
  | .constant => some ⟨"constant", i, .constant⟩
  | .cfg _ => none
  | .other _ => none

/-- Loop body of `extract_attributes`: scans the attribute list, remembering
the first bound attribute and failing on a second one. -/
def extractAttrsGo (i : Nat) (found : Option BoundAttr) :
    List Attr → Except GError (Option BoundAttr)
  | [] => .ok found
  | a :: rest =>
    match boundOf i a with
    | none => extractAttrsGo (i + 1) found rest
    | some b =>
      match found with
      | some _ =>
        .error ⟨"at most one #[func], #[signal], or #[constant] attribute per declaration allowed"⟩
      | none => extractAttrsGo (i + 1) (some b) rest

/-- Embeds `extract_attributes`. -/
def extractAttributes (attrs : List Attr) : Except GError (Option BoundAttr) :=
  extractAttrsGo 0 none attrs

/-- Embeds `util::extract_cfg_attrs` on the model: the cfg attributes of a
declaration, each as its truth value under the active configuration. -/
def extractCfgAttrs (attrs : List Attr) : List Bool :=
  attrs.filterMap (fun a =>
    match a with
    | .cfg b => some b
    | _ => none)

/-- A declaration guarded by cfg attributes survives conditional compilation
iff all of them hold in the active configuration. -/
def cfgSurvives (attrs : List Attr) : Bool :=
  (extractCfgAttrs attrs).all id

/-- Whether any of the qualifiers disallowed on a bound function is present
(the disjunction checked at godot_api.rs lines 259-265). -/
def hasDisallowedQualifiers (q : Qualifiers) : Bool :=
  q.tk_default || q.tk_const || q.tk_async || q.tk_unsafe || q.tk_extern || q.extern_abi

/-- Embeds `FuncDefinition`. -/
structure FuncDefinition where
  func : Function
  external_attributes : List Attr
  rename : Option String
  has_gd_self : Bool
deriving DecidableEq, Repr

/-- Embeds `SignalDefinition`. -/
structure SignalDefinition where
  signature : Function
  external_attributes : List Attr
deriving DecidableEq, Repr

/-- The body of the `process_godot_fns` loop for one method that carries a
bound attribute: remove the attribute, validate qualifiers and generics,
then dispatch on the attribute's role, either failing or extending the
accumulated function/signal definitions. -/
def applyBound (m : Function) (attr : BoundAttr)
    (funcs : List FuncDefinition) (sigs : List SignalDefinition) :
    Except GError (List FuncDefinition × List SignalDefinition) :=
  let attrsAfter := m.attributes.eraseIdx attr.index
  if hasDisallowedQualifiers m.qualifiers then
    .error (attrBail attr ("fn qualifiers are not allowed"))
  else if m.has_generic_params then
    .error (attrBail attr ("generic fn parameters are not supported"))
  else
    match attr.ty with
    | .func rename gd_self =>
      if gd_self then
        match m.params with
        | [] =>
          .error (attrBail attr ("with attribute key `gd_self`, the method must have a first parameter of type Gd<Self>"))
        | _ :: restParams =>
          .ok (funcs ++ [⟨{ m with params := restParams, attributes := attrsAfter },
                          attrsAfter, rename, true⟩],
               sigs)
      else
        .ok (funcs ++ [⟨{ m with attributes := attrsAfter }, attrsAfter, rename, false⟩], sigs)
    | .signal =>
      if m.return_ty.isSome then
        .error (attrBail attr ("return types are not supported"))
      else
        .ok (funcs, sigs ++ [⟨{ m with attributes := attrsAfter }, attrsAfter⟩])
    | .constant =>
      .error (attrBail attr ("#[constant] can only be used on associated constant"))

/-- Loop of `process_godot_fns`, with the accumulated function and signal
definitions made explicit. -/
def processFnsGo (funcs : List FuncDefinition) (sigs : List SignalDefinition) :
    List ImplItem → Except GError (List FuncDefinition × List SignalDefinition)
  | [] => .ok (funcs, sigs)
  | .constItem _ :: rest => processFnsGo funcs sigs rest
  | .otherItem :: rest => processFnsGo funcs sigs rest
  | .method m :: rest =>
    match extractAttributes m.attributes with
    | .error e => .error e
    | .ok none => processFnsGo funcs sigs rest
    | .ok (some attr) =>
      match applyBound m attr funcs sigs with
      | .error e => .error e
      | .ok (funcs2, sigs2) => processFnsGo funcs2 sigs2 rest

/-- Embeds `process_godot_fns`. -/
def processGodotFns (items : List ImplItem) :
    Except GError (List FuncDefinition × List SignalDefinition) :=
  processFnsGo [] [] items

/-- Loop of `process_godot_constants`. -/
def processConstsGo (acc : List ConstDecl) :
    List ImplItem → Except GError (List ConstDecl)
  | [] => .ok acc
  | .method _ :: rest => processConstsGo acc rest
  | .otherItem :: rest => processConstsGo acc rest
  | .constItem c :: rest =>
    match extractAttributes c.attributes with
    | .error e => .error e
    | .ok none => processConstsGo acc rest
    | .ok (some attr) =>
      match attr.ty with
      | .func _ _ => .error ⟨"#[func] can only be used on functions"⟩
      | .signal => .error ⟨"#[signal] can only be used on functions"⟩
      | .constant =>
        if c.has_initializer then
          processConstsGo (acc ++ [{ c with attributes := c.attributes.eraseIdx attr.index }]) rest
        else
          .error ⟨"exported constant must have initializer"⟩

/-- Embeds `process_godot_constants`. -/
def processGodotConstants (items : List ImplItem) : Except GError (List ConstDecl) :=
  processConstsGo [] items

/-- The parameter-collection loop over a signal's signature (godot_api.rs
lines 98-106): typed parameters contribute their type and name in order, the
receiver is skipped.  Returns (param_types, param_names). -/
def collectSignalParams : List FnParam → List String × List String
  | [] => ([], [])
  | .typed n t :: rest =>
    let p := collectSignalParams rest
    (t :: p.1, n :: p.2)
  | .receiver :: rest => collectSignalParams rest

/-- The typed parameters of a parameter list, as (name, type) pairs in
declaration order, receiver excluded. -/
def typedParams : List FnParam → List (String × String)
  | [] => []
  | .typed n t :: rest => (n, t) :: typedParams rest
  | .receiver :: rest => typedParams rest

/-- The per-signal registration glue of `transform_inherent_impl`: forwarded
cfg attributes, signal name, parameter count, and the parameter-descriptor
array (one `param_property_info(i, name_i)` entry per index, carrying the
name and type at position i). -/
structure SignalGlue where
  cfg_attrs : List Bool
  name : String
  params_count : Nat
  params : List (String × String)
deriving DecidableEq, Repr

/-- Builds the registration glue for one signal (godot_api.rs lines 90-130). -/
def mkSignalGlue (s : SignalDefinition) : SignalGlue :=
  let p := collectSignalParams s.signature.params
  { cfg_attrs := extractCfgAttrs s.external_attributes
    name := s.signature.name
    params_count := p.2.length
    params := (List.range p.1.length).map (fun i => (p.2.getD i (""), p.1.getD i (""))) }

/-- The constant-registration loop of `transform_inherent_impl` (lines
143-161), including the (defensive) re-check of the initializer. -/
def buildConstantGlue : List ConstDecl → Except GError (List (List Bool × String))
  | [] => .ok []
  | c :: rest =>
    if !c.has_initializer then .error ⟨"exported const should have initializer"⟩
    else
      match buildConstantGlue rest with
      | .error e => .error e
      | .ok gs => .ok ((extractCfgAttrs c.attributes, c.name) :: gs)

/-- The registration glue emitted for a `#[godot_api] impl MyType` block. -/
structure InherentGlue where
  signals : List SignalGlue
  funcs : List FuncDefinition
  constants : List (List Bool × String)
deriving DecidableEq, Repr

/-- Embeds `transform_inherent_impl`: process bound functions and signals,
build per-signal glue, process constants, build constant glue.  Any bail
aborts the expansion; no glue is emitted for the block. -/
def transformInherentImpl (items : List ImplItem) : Except GError InherentGlue :=
  match processGodotFns items with
  | .error e => .error e
  | .ok (funcs, sigs) =>
    let signalGlues := sigs.map mkSignalGlue
    match processGodotConstants items with
    | .error e => .error e
    | .ok consts =>
      match buildConstantGlue consts with
      | .error e => .error e
      | .ok cglue => .ok { signals := signalGlues, funcs := funcs, constants := cglue }

/-! ## Virtual-override block (`#[godot_api] impl GodotExt for MyType`) -/

/-- The thunks installed by `transform_trait_impl`: the lifecycle callbacks
(`callbacks::create`, `recreate`, `to_string`, `on_notification`,
`register_class_by_builder`) and the per-virtual-method callbacks. -/
inductive VThunk
  | create
  | recreate
  | toStringFn
  | onNotification
  | registerClassByBuilder
  | virtualCb (user_name : String)
deriving DecidableEq, Repr

/-- Accumulator of the item loop in `transform_trait_impl`.  Each lifecycle
slot is `None` until a first implementation is seen, then holds the list of
match arms accumulated so far; each arm is (cfg-attrs survive, thunk).
`virtuals` collects (cfg-attrs survive, dispatch name, user method name). -/
structure TraitCollect where
  register_fn : Option (List (Bool × VThunk))
  create_fn : Option (List (Bool × VThunk))
  recreate_fn : Option (List (Bool × VThunk))
  to_string_fn : Option (List (Bool × VThunk))
  on_notification_fn : Option (List (Bool × VThunk))
  virtuals : List (Bool × String × String)
deriving DecidableEq, Repr

/-- Empty accumulator (all slots start as `None`). -/
def TraitCollect.init : TraitCollect := ⟨none, none, none, none, none, []⟩

/-- Appends one guarded match arm to a lifecycle slot, turning an absent
slot into a one-arm selection. -/
def appendArm (slot : Option (List (Bool × VThunk))) (pred : Bool) (t : VThunk) :
    Option (List (Bool × VThunk)) :=
  some (slot.getD [] ++ [(pred, t)])

/-- The Godot-facing name of a non-lifecycle virtual method (godot_api.rs
lines 602-606): underscore-prefixed user name, except the historical
`init_ext` remap to `_init`. -/
def virtualMethodName (method_name : String) : String :=
  if method_name = "init_ext" then "_init" else ("_" ++ method_name)

/-- One step of the item loop of `transform_trait_impl` (lines 473-616). -/
def collectStep (since_api_4_2 : Bool) (acc : TraitCollect) : ImplItem → TraitCollect
  | .constItem _ => acc
  | .otherItem => acc
  | .method m =>
    let pred := cfgSurvives m.attributes
    match m.name with
    | "register_class" =>
      { acc with register_fn := appendArm acc.register_fn pred .registerClassByBuilder }
    | "init" =>
      { acc with
        create_fn := appendArm acc.create_fn pred .create
        recreate_fn :=
          if since_api_4_2 then appendArm acc.recreate_fn pred .recreate
          else acc.recreate_fn }
    | "to_string" =>
      { acc with to_string_fn := appendArm acc.to_string_fn pred .toStringFn }
    | "on_notification" =>
      { acc with on_notification_fn := appendArm acc.on_notification_fn pred .onNotification }
    | _ =>
      { acc with
        virtuals := acc.virtuals ++ [(pred, virtualMethodName m.name, m.name)] }

/-- The full item loop of `transform_trait_impl`. -/
def collectTraitImpl (since_api_4_2 : Bool) (items : List ImplItem) : TraitCollect :=
  items.foldl (collectStep since_api_4_2) TraitCollect.init

/-- Embeds `convert_to_match_expression_or_none`: the generated
`match () { (guarded arms yielding Some thunk)..., _ => None }`, evaluated
under the active configuration.  Arms whose cfg predicate fails are removed
from compilation; the match yields the first surviving arm's `Some thunk`,
or `None` from the universal fallback when no arm survives.  An absent slot
is the literal `None`. -/
def convert_to_match_expression_or_none {α : Type}
    (tokens : Option (List (Bool × α))) : Option α :=
  match tokens with
  | none => none
  | some arms => ((arms.filter (fun a => a.1)).head?).map (fun a => a.2)

/-- The `PluginComponent::UserVirtuals` payload assembled by
`transform_trait_impl` (lines 628-632 and 661-672), together with the match
arms of the generated `__virtual_call`. -/
structure UserVirtuals where
  user_register_fn : Option VThunk
  user_create_fn : Option VThunk
  user_recreate_fn : Option VThunk
  user_to_string_fn : Option VThunk
  user_on_notification_fn : Option VThunk
  virtual_entries : List (Bool × String × String)
deriving DecidableEq, Repr

/-- Embeds `transform_trait_impl`: run the item loop, then resolve each
lifecycle slot through `convert_to_match_expression_or_none`. -/
def transformTraitImpl (since_api_4_2 : Bool) (items : List ImplItem) : UserVirtuals :=
  let c := collectTraitImpl since_api_4_2 items
  { user_register_fn := convert_to_match_expression_or_none c.register_fn
    user_create_fn := convert_to_match_expression_or_none c.create_fn
    user_recreate_fn := convert_to_match_expression_or_none c.recreate_fn
    user_to_string_fn := convert_to_match_expression_or_none c.to_string_fn
    user_on_notification_fn := convert_to_match_expression_or_none c.on_notification_fn
    virtual_entries := c.virtuals }

/-- What claim C1 requires of one lifecycle slot: with zero surviving guarded
candidates the selection is absent, with exactly one survivor it is that
survivor's thunk, and any produced thunk comes from a surviving candidate
(never a stale one). -/
def slotResolves {α : Type} (arms : Option (List (Bool × α))) (out : Option α) : Prop :=
  ((arms.getD []).filter (fun a => a.1) = [] → out = none) ∧
  (∀ p : Bool × α, (arms.getD []).filter (fun a => a.1) = [p] → out = some p.2) ∧
  (∀ t : α, out = some t → (true, t) ∈ arms.getD [])

/-! ## Concrete example declarations (used to exercise the theorems) -/

/-- A trait-impl block with two conditionally-compiled init variants (only
the first survives the active configuration) and a compiled-out to_string
implementation. -/
def demoTraitItems : List ImplItem :=
  [ImplItem.method ⟨"init", [], none, Qualifiers.none, false, [Attr.cfg true]⟩,
   ImplItem.method ⟨"init", [], none, Qualifiers.none, false, [Attr.cfg false]⟩,
   ImplItem.method ⟨"to_string", [], none, Qualifiers.none, false, [Attr.cfg false]⟩]

/-- A trait-impl block with an ordinary virtual method and an init_ext
implementation. -/
def demoVirtualItems : List ImplItem :=
  [ImplItem.method ⟨"ready", [], none, Qualifiers.none, false, []⟩,
   ImplItem.method ⟨"init_ext", [], none, Qualifiers.none, false, []⟩]

/-- The signature of a signal with two typed parameters, after its #[signal]
attribute was removed. -/
def demoSignalSig : Function :=
  ⟨"damaged",
   [FnParam.receiver, FnParam.typed ("p1") ("TypeA"), FnParam.typed ("p2") ("TypeB")],
   none, Qualifiers.none, false, []⟩

/-- The signal definition the expander collects for `demoSignalSig`. -/
def demoSignalSd : SignalDefinition := ⟨demoSignalSig, []⟩

/-- An inherent impl block declaring just that signal. -/
def demoSignalItems : List ImplItem :=
  [ImplItem.method { demoSignalSig with attributes := [Attr.signal] }]

/-- The glue `transformInherentImpl` emits for `demoSignalItems`. -/
def demoSignalGlue : InherentGlue := ⟨[mkSignalGlue demoSignalSd], [], []⟩

/-- A method marked #[signal] that declares a return type. -/
def demoBadSignal : Function :=
  ⟨"hit", [FnParam.receiver], some ("i32"), Qualifiers.none, false, [Attr.signal]⟩

/-! ## Helper lemmas -/

/-- `is_deleted` passes the generation context through unchanged. -/
theorem is_deleted_preserves_ctx (cfg : CodegenConfig) (cn : TyName)
    (m : ClassMethod) (ctx : Context) : (is_deleted cfg cn m ctx).2 = ctx := by
  unfold is_deleted is_method_excluded
  by_cases h : cfg.method_excluded_tbl m.name <;> simp [h]

/-- The boolean answer of `is_deleted` does not depend on the context. -/
theorem is_deleted_ctx_independent (cfg : CodegenConfig) (cn : TyName)
    (m : ClassMethod) (ctx ctx' : Context) :
    (is_deleted cfg cn m ctx).1 = (is_deleted cfg cn m ctx').1 := by
  unfold is_deleted is_method_excluded
  by_cases h : cfg.method_excluded_tbl m.name <;> simp [h]

/-- Names other than new are untouched by the rename table. -/
theorem maybe_renamed_ne_new (c : TyName) (s : String) (h : s ≠ "new") :
    maybe_renamed c s = s := by
  unfold maybe_renamed
  split
  · exact absurd rfl h
  · rfl

/-! ## Claim theorems -/

/-- C4: every Special-Case Rule Set function is pure and deterministic: the
answer of `is_deleted` is a function of the class name, member name and
ambient build configuration only — it does not depend on the generation
context, the context is returned unchanged, and a prior consultation (of any
rule, for any member) never changes a later answer, so consultation order is
irrelevant. -/
theorem special_case_rule_set_pure :
    ∀ (cfg : CodegenConfig) (cn cn' : TyName) (m m' : ClassMethod) (ctx ctx' : Context),
      (is_deleted cfg cn m ctx).2 = ctx ∧
      (is_deleted cfg cn m ctx).1 = (is_deleted cfg cn m ctx').1 ∧
      (is_deleted cfg cn m ((is_deleted cfg cn' m' ctx).2)).1 = (is_deleted cfg cn m ctx).1 := by
  intro cfg cn cn' m m' ctx ctx'
  refine ⟨is_deleted_preserves_ctx cfg cn m ctx, is_deleted_ctx_independent cfg cn m ctx ctx', ?_⟩
  rw [is_deleted_preserves_ctx cfg cn' m' ctx]

/-- C5: a class marked experimental is deleted whenever the experimental
opt-in feature flag is off, and consequently never appears among the classes
retained by the generator — no partial stub survives the class filter. -/
theorem experimental_class_deleted_without_opt_in :
    ∀ (cfg : CodegenConfig) (c : TyName),
      is_class_experimental c = true →
      cfg.experimental_godot_api = false →
      is_class_deleted cfg c = true ∧
        ∀ classes : List TyName, c ∉ retainedClasses cfg classes := by
  intro cfg c hexp hflag
  have hdel : is_class_deleted cfg c = true := by
    unfold is_class_deleted
    simp [hexp, hflag]
  refine ⟨hdel, ?_⟩
  intro classes hmem
  rcases List.mem_filter.mp hmem with ⟨-, hkeep⟩
  rw [hdel] at hkeep
  exact absurd hkeep (by simp)

/-- C5 witness: GraphEdit is experimental; with the opt-in flag off it is
deleted and absent from the retained classes of a concrete description. -/
theorem experimental_class_deleted_without_opt_in_witness :
    is_class_experimental ⟨"GraphEdit", "GraphEdit"⟩ = true ∧
    is_class_deleted ⟨false, false, false, fun _ => false⟩ ⟨"GraphEdit", "GraphEdit"⟩ = true ∧
    ⟨"GraphEdit", "GraphEdit"⟩ ∉
      retainedClasses ⟨false, false, false, fun _ => false⟩
        [⟨"GraphEdit", "GraphEdit"⟩, ⟨"Node", "Node"⟩] :=
  ⟨rfl,
   (experimental_class_deleted_without_opt_in ⟨false, false, false, fun _ => false⟩
      ⟨"GraphEdit", "GraphEdit"⟩ rfl rfl).1,
   (experimental_class_deleted_without_opt_in ⟨false, false, false, fun _ => false⟩
      ⟨"GraphEdit", "GraphEdit"⟩ rfl rfl).2
     [⟨"GraphEdit", "GraphEdit"⟩, ⟨"Node", "Node"⟩]⟩

/-- C7: a generic construction method named new is renamed to instantiate for
every class, and any method name outside the rename table keeps its
description name. -/
theorem new_renamed_to_instantiate :
    ∀ (c : TyName) (n : String),
      maybe_renamed c ("new") = "instantiate" ∧ (n ≠ "new" → maybe_renamed c n = n) := by
  intro c n
  exact ⟨rfl, maybe_renamed_ne_new c n⟩

/-- C7 witness: concrete rename of new on GDScript, and a non-table name kept
unchanged. -/
theorem new_renamed_to_instantiate_witness :
    maybe_renamed ⟨"GDScript", "GDScript"⟩ ("new") = "instantiate" ∧
    maybe_renamed ⟨"GDScript", "GDScript"⟩ ("load") = "load" :=
  ⟨(new_renamed_to_instantiate ⟨"GDScript", "GDScript"⟩ ("load")).1,
   (new_renamed_to_instantiate ⟨"GDScript", "GDScript"⟩ ("load")).2 (by decide)⟩

/-- C9: a class-or-builtin method is available as a named internal accessor in
the method table exactly when it is demoted from the public surface — the two
lookup functions agree on every input. -/
theorem named_accessor_iff_private :
    ∀ (c : TyName) (n : String), is_named_accessor_in_table c n = is_private c n :=
  fun _ _ => rfl

/-- C10: on every non-empty builtin type name, `is_builtin_type_deleted`
answers (and answers true exactly for Nil or an ASCII-lowercase-initial
name); on the empty name the unguarded first-character unwrap panics,
modelled as `none`. -/
theorem builtin_type_deleted_characterization :
    ∀ t : TyName,
      (t.godot_ty ≠ "" →
        (is_builtin_type_deleted t).isSome = true ∧
        (is_builtin_type_deleted t = some true ↔
          t.godot_ty = "Nil" ∨
            ∃ c cs, t.godot_ty.data = c :: cs ∧ 'a' ≤ c ∧ c ≤ 'z')) ∧
      (t.godot_ty = "" → is_builtin_type_deleted t = none) := by
  intro t
  constructor
  · intro hne
    by_cases hnil : t.godot_ty = "Nil"
    · refine ⟨by simp [is_builtin_type_deleted, hnil], ?_⟩
      constructor
      · intro _
        exact Or.inl hnil
      · intro _
        simp [is_builtin_type_deleted, hnil]
    · have hdata : ∃ c cs, t.godot_ty.data = c :: cs := by
        cases hd : t.godot_ty.data with
        | nil =>
          exfalso
          apply hne
          cases hgt : t.godot_ty with
          | mk l =>
            rw [hgt] at hd
            simp at hd
            rw [hd]
        | cons c cs => exact ⟨c, cs, rfl⟩
      rcases hdata with ⟨c, cs, hd⟩
      have hval : is_builtin_type_deleted t = some (is_ascii_lowercase c) := by
        simp [is_builtin_type_deleted, hnil, is_builtin_scalar, hd]
      refine ⟨by simp [hval], ?_⟩
      rw [hval]
      constructor
      · intro hsome
        have hc : is_ascii_lowercase c = true := by
          simpa using hsome
        rw [is_ascii_lowercase, Bool.and_eq_true, decide_eq_true_iff, decide_eq_true_iff] at hc
        exact Or.inr ⟨c, cs, hd, hc.1, hc.2⟩
      · intro h
        rcases h with h | ⟨c', cs', hd', h1, h2⟩
        · exact absurd h hnil
        · rw [hd] at hd'
          cases hd'
          have : is_ascii_lowercase c = true := by
            rw [is_ascii_lowercase, Bool.and_eq_true, decide_eq_true_iff, decide_eq_true_iff]
            exact ⟨h1, h2⟩
          rw [this]
  · intro hempty
    simp [is_builtin_type_deleted, hempty, is_builtin_scalar]

/-- C10 witness: the scalar builtin int is deleted, and the empty name hits
the modelled panic. -/
theorem builtin_type_deleted_characterization_witness :
    is_builtin_type_deleted ⟨"int", "i64"⟩ = some true ∧
    is_builtin_type_deleted ⟨"", ""⟩ = none :=
  ⟨((builtin_type_deleted_characterization ⟨"int", "i64"⟩).1 (by decide)).2.mpr
     (Or.inr ⟨'i', ['n', 't'], rfl, by decide, by decide⟩),
   (builtin_type_deleted_characterization ⟨"", ""⟩).2 rfl⟩

/-- C8 counterexample: rename-then-strip is not idempotent as stated — on
(Object, get_get_x) one application yields get_x, a second application
strips again and yields x. -/
theorem rename_then_strip_not_idempotent :
    rename_then_strip ⟨"Object", "Object"⟩
        (rename_then_strip ⟨"Object", "Object"⟩ ("get_get_x")) ≠
      rename_then_strip ⟨"Object", "Object"⟩ ("get_get_x") := by
  decide

/-- C8 (amended): rename-then-prefix-retention is idempotent for every
(class, method) whose once-transformed name is not the rename-table key new
and whose remaining get_ prefix, if any, is protected by the retention
table. -/
theorem rename_then_strip_idempotent_amended :
    ∀ (c : TyName) (n : String),
      (strStartsWith (rename_then_strip c n) ("get_") = true →
        keeps_get_pfx c ⟨rename_then_strip c n⟩ = true) →
      rename_then_strip c n ≠ "new" →
      rename_then_strip c (rename_then_strip c n) = rename_then_strip c n := by
  intro c n hkeep hnew
  show strip_accessor c (maybe_renamed c (rename_then_strip c n)) = rename_then_strip c n
  rw [maybe_renamed_ne_new c _ hnew]
  unfold strip_accessor
  by_cases hs : strStartsWith (rename_then_strip c n) ("get_") = true
  · simp [hs, hkeep hs]
  · rw [Bool.not_eq_true] at hs
    simp [hs]

/-- C8 witness: Object.get_script is in the retention table, so one
application retains the prefix and a second application is the identity. -/
theorem rename_then_strip_idempotent_amended_witness :
    rename_then_strip ⟨"Object", "Object"⟩
        (rename_then_strip ⟨"Object", "Object"⟩ ("get_script")) =
      rename_then_strip ⟨"Object", "Object"⟩ ("get_script") :=
  rename_then_strip_idempotent_amended ⟨"Object", "Object"⟩ ("get_script")
    (fun _ => by decide) (by decide)

/-! ## Lemmas about the macro expansion -/

/-- The generated cfg-guarded match resolves every slot as claim C1 demands. -/
theorem convert_slot_resolves {α : Type} (o : Option (List (Bool × α))) :
    slotResolves o (convert_to_match_expression_or_none o) := by
  cases o with
  | none =>
    refine ⟨fun _ => rfl, fun p hp => ?_, fun t ht => ?_⟩
    · exact absurd hp (by simp)
    · exact absurd ht (by simp [convert_to_match_expression_or_none])
  | some arms =>
    refine ⟨fun hf => ?_, fun p hp => ?_, fun t ht => ?_⟩
    · show ((arms.filter (fun a => a.1)).head?).map (fun a => a.2) = none
      rw [show (Option.getD (some arms) [] = arms) from rfl] at hf
      rw [hf]
      rfl
    · show ((arms.filter (fun a => a.1)).head?).map (fun a => a.2) = some p.2
      rw [show (Option.getD (some arms) [] = arms) from rfl] at hp
      rw [hp]
      rfl
    · replace ht : ((arms.filter (fun a => a.1)).head?).map (fun a => a.2) = some t := ht
      rw [Option.map_eq_some'] at ht
      rcases ht with ⟨p, hp, hpt⟩
      cases hfl : arms.filter (fun a => a.1) with
      | nil =>
        rw [hfl] at hp
        exact absurd hp (by simp)
      | cons q qs =>
        rw [hfl] at hp
        have hqp : q = p := by simpa using hp
        have hqmem := List.mem_filter.mp (hfl ▸ List.mem_cons_self q qs)
        have hq1 : q.1 = true := by simpa using hqmem.2
        show (true, t) ∈ Option.getD (some arms) []
        subst hpt
        subst hqp
        rw [← hq1]
        exact hqmem.1

/-- A bound attribute produced from a single attribute with the signal role
carries the attribute name signal. -/
theorem boundOf_signal_name (i : Nat) (a : Attr) (b : BoundAttr)
    (h : boundOf i a = some b) (hty : b.ty = BoundTy.signal) :
    b.attr_name = "signal" := by
  cases a with
  | func r g =>
    simp only [boundOf] at h
    injection h with h2
    subst h2
    exact BoundTy.noConfusion hty
  | signal =>
    simp only [boundOf] at h
    injection h with h2
    subst h2
    rfl
  | constant =>
    simp only [boundOf] at h
    injection h with h2
    subst h2
    exact BoundTy.noConfusion hty
  | cfg c => exact Option.noConfusion h
  | other s => exact Option.noConfusion h

/-- Invariant of the attribute-extraction loop: a returned signal-role bound
attribute is named signal. -/
theorem extractAttrsGo_signal_name :
    ∀ (l : List Attr) (i : Nat) (found : Option BoundAttr) (b : BoundAttr),
      (∀ b0, found = some b0 → b0.ty = BoundTy.signal → b0.attr_name = "signal") →
      extractAttrsGo i found l = .ok (some b) →
      b.ty = BoundTy.signal → b.attr_name = "signal" := by
  intro l
  induction l with
  | nil =>
    intro i found b hinv hrun hty
    replace hrun : Except.ok (ε := GError) found = .ok (some b) := hrun
    injection hrun with h2
    exact hinv b h2 hty
  | cons a rest ih =>
    intro i found b hinv hrun hty
    simp only [extractAttrsGo] at hrun
    cases hb : boundOf i a with
    | none =>
      rw [hb] at hrun
      exact ih (i + 1) found b hinv hrun hty
    | some b' =>
      rw [hb] at hrun
      cases found with
      | some b0 =>
        replace hrun :
            (Except.error ⟨"at most one #[func], #[signal], or #[constant] attribute per declaration allowed"⟩
              : Except GError (Option BoundAttr)) = .ok (some b) := hrun
        exact Except.noConfusion hrun
      | none =>
        refine ih (i + 1) (some b') b ?_ hrun hty
        intro b0 h0 hty0
        injection h0 with h0
        rw [← h0] at hty0 ⊢
        exact boundOf_signal_name i a b' hb hty0

/-- A bound attribute extracted with the signal role is named signal. -/
theorem extractAttributes_signal_name (attrs : List Attr) (b : BoundAttr)
    (h : extractAttributes attrs = .ok (some b)) (hty : b.ty = BoundTy.signal) :
    b.attr_name = "signal" :=
  extractAttrsGo_signal_name attrs 0 none b
    (fun _ h0 _ => Option.noConfusion h0) h hty

/-- Processing a signal-marked method with a declared return type always
fails (with one of the declaration-shape diagnostics). -/
theorem applyBound_signal_ret_error (m : Function) (attr : BoundAttr)
    (hty : attr.ty = BoundTy.signal) (hret : m.return_ty.isSome = true)
    (funcs : List FuncDefinition) (sigs : List SignalDefinition) :
    ∃ e, applyBound m attr funcs sigs = .error e := by
  by_cases hq : hasDisallowedQualifiers m.qualifiers = true
  · exact ⟨attrBail attr ("fn qualifiers are not allowed"), by simp [applyBound, hq]⟩
  · by_cases hg : m.has_generic_params = true
    · exact ⟨attrBail attr ("generic fn parameters are not supported"),
        by simp [applyBound, hq, hg]⟩
    · exact ⟨attrBail attr ("return types are not supported"),
        by simp [applyBound, hq, hg, hty, hret]⟩

/-- A well-shaped signal-marked method with a declared return type fails with
exactly the return-type diagnostic. -/
theorem applyBound_signal_msg (m : Function) (attr : BoundAttr)
    (hname : attr.attr_name = "signal")
    (hty : attr.ty = BoundTy.signal)
    (hq : hasDisallowedQualifiers m.qualifiers = false)
    (hg : m.has_generic_params = false)
    (hret : m.return_ty.isSome = true)
    (funcs : List FuncDefinition) (sigs : List SignalDefinition) :
    applyBound m attr funcs sigs = .error ⟨"#[signal]: return types are not supported"⟩ := by
  simp [applyBound, hq, hg, hty, hret, attrBail, hname]

/-- If the `process_godot_fns` loop succeeds, no signal-marked method in the
block declares a return type. -/
theorem processFnsGo_ok_signal_ret :
    ∀ (items : List ImplItem) (funcs : List FuncDefinition) (sigs : List SignalDefinition)
      (r : List FuncDefinition × List SignalDefinition),
      processFnsGo funcs sigs items = .ok r →
      ∀ (m : Function) (b : BoundAttr),
        ImplItem.method m ∈ items →
        extractAttributes m.attributes = .ok (some b) →
        b.ty = BoundTy.signal →
        m.return_ty = none := by
  intro items
  induction items with
  | nil =>
    intro funcs sigs r hok m b hm hex hty
    exact absurd hm (List.not_mem_nil _)
  | cons it rest ih =>
    intro funcs sigs r hok m b hm hex hty
    rcases List.mem_cons.mp hm with heq | hmem
    · subst heq
      simp only [processFnsGo] at hok
      simp only [hex] at hok
      cases hret : m.return_ty with
      | none => rfl
      | some ty =>
        have hisSome : m.return_ty.isSome = true := by rw [hret]; rfl
        rcases applyBound_signal_ret_error m b hty hisSome funcs sigs with ⟨e, he⟩
        rw [he] at hok
        exact Except.noConfusion hok
    · cases it with
      | constItem c =>
        simp only [processFnsGo] at hok
        exact ih funcs sigs r hok m b hmem hex hty
      | otherItem =>
        simp only [processFnsGo] at hok
        exact ih funcs sigs r hok m b hmem hex hty
      | method m0 =>
        simp only [processFnsGo] at hok
        cases hA : extractAttributes m0.attributes with
        | error e =>
          rw [hA] at hok
          exact Except.noConfusion hok
        | ok ob =>
          cases ob with
          | none =>
            rw [hA] at hok
            exact ih funcs sigs r hok m b hmem hex hty
          | some attr =>
            rw [hA] at hok
            replace hok :
                (match applyBound m0 attr funcs sigs with
                  | Except.error e => Except.error e
                  | Except.ok (funcs2, sigs2) => processFnsGo funcs2 sigs2 rest)
                  = Except.ok r := hok
            cases hB : applyBound m0 attr funcs sigs with
            | error e =>
              rw [hB] at hok
              exact Except.noConfusion hok
            | ok p =>
              obtain ⟨f2, s2⟩ := p
              rw [hB] at hok
              exact ih f2 s2 r hok m b hmem hex hty

/-- The item loop never removes virtual-method entries. -/
theorem collectStep_virtuals_mono (s : Bool) (acc : TraitCollect) (it : ImplItem)
    (x : Bool × String × String) (hx : x ∈ acc.virtuals) :
    x ∈ (collectStep s acc it).virtuals := by
  cases it with
  | constItem c => exact hx
  | otherItem => exact hx
  | method m =>
    simp only [collectStep]
    split
    · exact hx
    · exact hx
    · exact hx
    · exact hx
    · exact List.mem_append_left _ hx

/-- Folding more items preserves collected virtual-method entries. -/
theorem foldl_collect_mono (s : Bool) (items : List ImplItem) :
    ∀ (acc : TraitCollect) (x : Bool × String × String),
      x ∈ acc.virtuals → x ∈ (items.foldl (collectStep s) acc).virtuals := by
  induction items with
  | nil => intro acc x hx; exact hx
  | cons it rest ih =>
    intro acc x hx
    exact ih (collectStep s acc it) x (collectStep_virtuals_mono s acc it x hx)

/-- On a non-lifecycle method the item loop appends exactly the
underscore-named virtual entry. -/
theorem collectStep_method_other (s : Bool) (acc : TraitCollect) (m : Function)
    (h1 : m.name ≠ "register_class") (h2 : m.name ≠ "init")
    (h3 : m.name ≠ "to_string") (h4 : m.name ≠ "on_notification") :
    (collectStep s acc (ImplItem.method m)).virtuals
      = acc.virtuals ++ [(cfgSurvives m.attributes, virtualMethodName m.name, m.name)] := by
  simp only [collectStep]

/-- Every non-lifecycle method contributes its virtual entry to the
collected list. -/
theorem collect_virtual_mem (s : Bool) :
    ∀ (items : List ImplItem) (acc : TraitCollect) (m : Function),
      ImplItem.method m ∈ items →
      m.name ≠ "register_class" → m.name ≠ "init" →
      m.name ≠ "to_string" → m.name ≠ "on_notification" →
      (cfgSurvives m.attributes, virtualMethodName m.name, m.name) ∈
        (items.foldl (collectStep s) acc).virtuals := by
  intro items
  induction items with
  | nil =>
    intro acc m hm
    exact absurd hm (List.not_mem_nil _)
  | cons it rest ih =>
    intro acc m hm h1 h2 h3 h4
    rcases List.mem_cons.mp hm with heq | hmem
    · subst heq
      rw [List.foldl_cons]
      apply foldl_collect_mono
      rw [collectStep_method_other s acc m h1 h2 h3 h4]
      exact List.mem_append_right _ (List.mem_singleton_self _)
    · exact ih (collectStep s acc it) m hmem h1 h2 h3 h4

/-- The parameter-collection loop returns the types and names of the typed
parameters in declaration order. -/
theorem collectSignalParams_eq :
    ∀ ps : List FnParam,
      collectSignalParams ps
        = ((typedParams ps).map Prod.snd, (typedParams ps).map Prod.fst) := by
  intro ps
  induction ps with
  | nil => rfl
  | cons p rest ih =>
    cases p with
    | typed n t => simp [collectSignalParams, typedParams, ih]
    | receiver => simp [collectSignalParams, typedParams, ih]

/-- Rebuilding a pair list from indexed lookups into its projections is the
identity. -/
theorem range_map_getD (l : List (String × String)) :
    (List.range l.length).map
        (fun i => ((l.map Prod.fst).getD i (""), (l.map Prod.snd).getD i (""))) = l := by
  induction l with
  | nil => rfl
  | cons a l ih =>
    rw [List.length_cons, List.range_succ_eq_map, List.map_cons, List.map_map]
    have hfun :
        ((fun i => (((a :: l).map Prod.fst).getD i (""), ((a :: l).map Prod.snd).getD i (""))) ∘ Nat.succ)
          = (fun i => ((l.map Prod.fst).getD i (""), (l.map Prod.snd).getD i (""))) := by
      funext i
      rfl
    rw [hfun, ih]
    rfl

/-! ## Claim theorems (macro expansion) -/

/-- C1: for each of the five lifecycle slots (class-registration hook,
construction hook, recreate, string conversion, notification delivery), the
build-time selection emitted by the trait-impl transform resolves to absent
when zero guarded candidates survive conditional compilation, to the sole
survivor's thunk when exactly one survives, and never to a thunk of a
compiled-out candidate. -/
theorem lifecycle_slot_selection :
    ∀ (since_api_4_2 : Bool) (items : List ImplItem),
      slotResolves (collectTraitImpl since_api_4_2 items).register_fn
        (transformTraitImpl since_api_4_2 items).user_register_fn ∧
      slotResolves (collectTraitImpl since_api_4_2 items).create_fn
        (transformTraitImpl since_api_4_2 items).user_create_fn ∧
      slotResolves (collectTraitImpl since_api_4_2 items).recreate_fn
        (transformTraitImpl since_api_4_2 items).user_recreate_fn ∧
      slotResolves (collectTraitImpl since_api_4_2 items).to_string_fn
        (transformTraitImpl since_api_4_2 items).user_to_string_fn ∧
      slotResolves (collectTraitImpl since_api_4_2 items).on_notification_fn
        (transformTraitImpl since_api_4_2 items).user_on_notification_fn := by
  intro s items
  exact ⟨convert_slot_resolves _, convert_slot_resolves _, convert_slot_resolves _,
    convert_slot_resolves _, convert_slot_resolves _⟩

/-- C1 witness: two conditionally-compiled init variants of which only the
first survives resolve the construction slot to the surviving thunk; the
compiled-out to_string candidate and the never-declared register_class slot
both resolve to absent. -/
theorem lifecycle_slot_selection_witness :
    (transformTraitImpl true demoTraitItems).user_create_fn = some VThunk.create ∧
    (transformTraitImpl true demoTraitItems).user_to_string_fn = none ∧
    (transformTraitImpl true demoTraitItems).user_register_fn = none := by
  have h := lifecycle_slot_selection true demoTraitItems
  refine ⟨?_, ?_, ?_⟩
  · exact h.2.1.2.1 (true, VThunk.create) (by rfl)
  · exact h.2.2.2.1.1 (by rfl)
  · exact h.1.1 (by rfl)

/-- C2: a method marked #[signal] that declares a return type makes macro
expansion fail: `process_godot_fns` (and with it the whole inherent-impl
transform, so no registration glue is emitted) returns an error, and when the
declaration is otherwise well-shaped the error is exactly the
return-types-are-not-supported diagnostic. -/
theorem signal_return_type_rejected :
    ∀ (items : List ImplItem) (m : Function) (b : BoundAttr),
      ImplItem.method m ∈ items →
      extractAttributes m.attributes = .ok (some b) →
      b.ty = BoundTy.signal →
      m.return_ty.isSome = true →
      (∃ e, processGodotFns items = .error e) ∧
      (∃ e, transformInherentImpl items = .error e) ∧
      (hasDisallowedQualifiers m.qualifiers = false →
        m.has_generic_params = false →
        ∀ (funcs : List FuncDefinition) (sigs : List SignalDefinition) (post : List ImplItem),
          processFnsGo funcs sigs (ImplItem.method m :: post)
            = .error ⟨"#[signal]: return types are not supported"⟩) := by
  intro items m b hm hex hty hret
  have herr : ∃ e, processGodotFns items = .error e := by
    cases h : processGodotFns items with
    | error e => exact ⟨e, rfl⟩
    | ok r =>
      have hnone := processFnsGo_ok_signal_ret items [] [] r h m b hm hex hty
      rw [hnone] at hret
      exact absurd hret (by simp)
  refine ⟨herr, ?_, ?_⟩
  · rcases herr with ⟨e, he⟩
    exact ⟨e, by simp only [transformInherentImpl, he]⟩
  · intro hq hg funcs sigs post
    have hname := extractAttributes_signal_name m.attributes b hex hty
    simp only [processFnsGo, hex]
    rw [applyBound_signal_msg m b hname hty hq hg hret funcs sigs]

/-- C2 witness: a concrete signal with return type i32 makes processing fail
with exactly the return-type diagnostic. -/
theorem signal_return_type_rejected_witness :
    processGodotFns [ImplItem.method demoBadSignal]
      = .error ⟨"#[signal]: return types are not supported"⟩ := by
  have h := signal_return_type_rejected [ImplItem.method demoBadSignal] demoBadSignal
    ⟨"signal", 0, BoundTy.signal⟩ (by decide) (by rfl) rfl rfl
  exact h.2.2 rfl rfl [] [] []

/-- C3: the registration descriptor emitted for a signal lists exactly the
signal's typed parameters — same length, same names, same types, same order
(the receiver excluded) — and the inherent-impl transform emits exactly one
such descriptor array per collected signal. -/
theorem signal_descriptor_roundtrip :
    ∀ (sd : SignalDefinition),
      (mkSignalGlue sd).params = typedParams sd.signature.params ∧
      (mkSignalGlue sd).params_count = (typedParams sd.signature.params).length ∧
      (mkSignalGlue sd).name = sd.signature.name ∧
      (∀ (items : List ImplItem) (funcs : List FuncDefinition)
         (sigs : List SignalDefinition) (consts : List ConstDecl)
         (cglue : List (List Bool × String)),
        processGodotFns items = .ok (funcs, sigs) →
        processGodotConstants items = .ok consts →
        buildConstantGlue consts = .ok cglue →
        transformInherentImpl items = .ok ⟨sigs.map mkSignalGlue, funcs, cglue⟩) := by
  intro sd
  have hc := collectSignalParams_eq sd.signature.params
  refine ⟨?_, ?_, rfl, ?_⟩
  · show (List.range (collectSignalParams sd.signature.params).1.length).map
        (fun i => ((collectSignalParams sd.signature.params).2.getD i (""),
                   (collectSignalParams sd.signature.params).1.getD i ("")))
      = typedParams sd.signature.params
    rw [hc]
    simp only [List.length_map]
    exact range_map_getD (typedParams sd.signature.params)
  · show (collectSignalParams sd.signature.params).2.length
      = (typedParams sd.signature.params).length
    rw [hc]
    exact List.length_map _ _
  · intro items funcs sigs consts cglue hpr hpc hbc
    simp only [transformInherentImpl, hpr, hpc, hbc]

/-- C3 witness: a signal (p1 TypeA, p2 TypeB) yields the two-entry descriptor
in order, and the transform emits it. -/
theorem signal_descriptor_roundtrip_witness :
    (mkSignalGlue demoSignalSd).params = [("p1", "TypeA"), ("p2", "TypeB")] ∧
    (mkSignalGlue demoSignalSd).params_count = 2 ∧
    transformInherentImpl demoSignalItems = .ok demoSignalGlue := by
  have h := signal_descriptor_roundtrip demoSignalSd
  refine ⟨?_, ?_, ?_⟩
  · rw [h.1]; rfl
  · rw [h.2.1]; rfl
  · exact h.2.2.2 demoSignalItems [] [demoSignalSd] [] [] rfl rfl rfl

/-- C6: every non-lifecycle virtual method implemented in a virtual-override
block is registered in the virtual-call selection under an underscore
followed by its user name, except that init_ext is remapped to the host's
distinguished initializer name _init. -/
theorem virtual_dispatch_name :
    ∀ (since_api_4_2 : Bool) (items : List ImplItem) (m : Function),
      ImplItem.method m ∈ items →
      m.name ≠ "register_class" → m.name ≠ "init" →
      m.name ≠ "to_string" → m.name ≠ "on_notification" →
      (cfgSurvives m.attributes,
        (if m.name = "init_ext" then "_init" else ("_" ++ m.name)), m.name) ∈
        (transformTraitImpl since_api_4_2 items).virtual_entries := by
  intro s items m hm h1 h2 h3 h4
  exact collect_virtual_mem s items TraitCollect.init m hm h1 h2 h3 h4

/-- C6 witness: a virtual method ready dispatches as _ready, and init_ext
dispatches as _init. -/
theorem virtual_dispatch_name_witness :
    (true, "_ready", "ready") ∈ (transformTraitImpl true demoVirtualItems).virtual_entries ∧
    (true, "_init", "init_ext") ∈ (transformTraitImpl true demoVirtualItems).virtual_entries := by
  constructor
  · exact virtual_dispatch_name true demoVirtualItems
      ⟨"ready", [], none, Qualifiers.none, false, []⟩
      (by decide) (by decide) (by decide) (by decide) (by decide)
  · exact virtual_dispatch_name true demoVirtualItems
      ⟨"init_ext", [], none, Qualifiers.none, false, []⟩
      (by decide) (by decide) (by decide) (by decide) (by decide)

end Gdext
